import Mathlib

/-!
Verification of the persistence core of the `huper` backend: the
`ReportRepository` over `FinancialReport` records
(`backend/database/repositories/report.py`) and the bootstrap manager
`DBManager` (`backend/database/initializer.py`), shallowly embedded in Lean.

The database session is modelled as an explicit store value (a list of rows
plus a surrogate-id counter); each repository method becomes a pure function
from store to store.  Payloads (Python `Dict[str, Any]`) are modelled as a
record of optional fields: `none` means the key is absent from the dict.
-/

namespace Huper

/-- Rows of the `financial_reports` table.  The business fields are the
surrogate `id`, the ticker `symbol`, the `report_type`, the `report_year`
and the nullable `report_quarter`; every remaining content column is opaque
to the repository and is collapsed into the single `content` field. -/
structure FinancialReport where
  id : Nat
  symbol : String
  report_type : String
  report_year : Int
  report_quarter : Option Int
  content : String
  deriving DecidableEq, Repr

/-- A report payload, i.e. a Python `Dict[str, Any]` as handed to the
repository.  An outer `none` models the key being absent from the dict; for
`report_quarter` the inner `Option` is the (possibly `None`) value stored
under a present key. -/
structure Payload where
  id : Option Nat := none
  symbol : Option String := none
  report_type : Option String := none
  report_year : Option Int := none
  report_quarter : Option (Option Int) := none
  content : Option String := none
  deriving DecidableEq, Repr

/-- Python's `str.lower()` on a ticker symbol (folding of the ASCII
letters).  The repository's read paths call it directly
(`symbol.lower()` in `get_by_symbol`, `find_duplicate`, `delete_by_symbol`,
`count_by_symbol`).  Modelled from the spec for the write paths: the
`FinancialReport` ORM model lives in `backend/database/models.py`, which is
not among the sources here (only its import site is), and the spec states
that `symbol` is case-normalized to lowercase on every read and write path,
so the model is taken to lower-case the symbol whenever the attribute is
assigned. -/
def normSymbol (s : String) : String := String.mk (s.data.map Char.toLower)

/-- Construction `FinancialReport(**report_data)` with the store-assigned
surrogate id `n`; a key absent from the payload leaves a default value
(a modelling placeholder, irrelevant whenever the claims supply the key). -/
def mkReport (n : Nat) (p : Payload) : FinancialReport :=
  { id := n
    symbol := normSymbol (p.symbol.getD "")
    report_type := p.report_type.getD ""
    report_year := p.report_year.getD 0
    report_quarter := p.report_quarter.getD none
    content := p.content.getD "" }

/-- The `for key, value in update_data.items(): if hasattr(report, key):
setattr(report, key, value)` loop of `ReportRepository.update`.  Every key
present in the payload names an existing attribute of the entity, `id`
included, and is applied. -/
def applyUpdate (r : FinancialReport) (p : Payload) : FinancialReport :=
  { id := p.id.getD r.id
    symbol := match p.symbol with
      | some s => normSymbol s
      | none => r.symbol
    report_type := p.report_type.getD r.report_type
    report_year := p.report_year.getD r.report_year
    report_quarter := p.report_quarter.getD r.report_quarter
    content := p.content.getD r.content }

/-- The overwrite loop of `ReportRepository.upsert`, which differs from
`applyUpdate` in guarding `key != "id"`: the surrogate id is never touched. -/
def applyUpsertUpdate (r : FinancialReport) (p : Payload) : FinancialReport :=
  { id := r.id
    symbol := match p.symbol with
      | some s => normSymbol s
      | none => r.symbol
    report_type := p.report_type.getD r.report_type
    report_year := p.report_year.getD r.report_year
    report_quarter := p.report_quarter.getD r.report_quarter
    content := p.content.getD r.content }

/-- The database state seen by the repository: the stored rows in insertion
order, plus the next surrogate id the store will assign. -/
structure Store where
  nextId : Nat
  reports : List FinancialReport
  deriving DecidableEq, Repr

/-- Replace the first element satisfying `p` by its image under `f`
(the in-place mutation of the row object found by a query). -/
def updateFirst (p : FinancialReport → Bool) (f : FinancialReport → FinancialReport) :
    List FinancialReport → List FinancialReport
  | [] => []
  | r :: rs => if p r then f r :: rs else r :: updateFirst p f rs

/-- The WHERE clause of `find_duplicate`: symbol compared against
`symbol.lower()`, exact `report_type` and `report_year`, and the quarter
condition split into two exclusive branches exactly as in the source —
`report_quarter == value` when a quarter is passed, `report_quarter IS NULL`
when it is not. -/
def matchesKey (symbol ty : String) (yr : Int) (qt : Option Int)
    (r : FinancialReport) : Bool :=
  r.symbol == normSymbol symbol && r.report_type == ty && r.report_year == yr &&
    (match qt with
     | some q => r.report_quarter == some q
     | none => r.report_quarter.isNone)

/-- `ReportRepository.add`: build the entity from the payload, insert,
commit, and return the created row. -/
def add (st : Store) (p : Payload) : Store × FinancialReport :=
  let r := mkReport st.nextId p
  ({ nextId := st.nextId + 1, reports := st.reports ++ [r] }, r)

/-- Rows built by `add_bulk` from consecutive payloads, with consecutive
surrogate ids starting at `n`. -/
def mkReports (n : Nat) : List Payload → List FinancialReport
  | [] => []
  | p :: ps => mkReport n p :: mkReports (n + 1) ps

/-- `ReportRepository.add_bulk`: `bulk_save_objects` over the built
entities, one commit. -/
def add_bulk (st : Store) (ps : List Payload) : Store × List FinancialReport :=
  let rs := mkReports st.nextId ps
  ({ nextId := st.nextId + ps.length, reports := st.reports ++ rs }, rs)

/-- `ReportRepository.get_by_id`. -/
def get_by_id (st : Store) (report_id : Nat) : Option FinancialReport :=
  st.reports.find? (fun r => r.id == report_id)

/-- `ReportRepository.get_by_symbol`: all rows whose symbol equals
`symbol.lower()`. -/
def get_by_symbol (st : Store) (symbol : String) : List FinancialReport :=
  st.reports.filter (fun r => r.symbol == normSymbol symbol)

/-- `ReportRepository.find_duplicate`. -/
def find_duplicate (st : Store) (symbol ty : String) (yr : Int)
    (qt : Option Int) : Option FinancialReport :=
  st.reports.find? (matchesKey symbol ty yr qt)

/-- `ReportRepository.update`: look the row up by id; when found, apply
every payload key that names an existing attribute and commit.  Returns the
updated row, or `none` on a miss. -/
def update (st : Store) (report_id : Nat) (p : Payload) :
    Store × Option FinancialReport :=
  match st.reports.find? (fun r => r.id == report_id) with
  | some r =>
      ({ st with
          reports := updateFirst (fun x => x.id == report_id)
            (fun x => applyUpdate x p) st.reports },
        some (applyUpdate r p))
  | none => (st, none)

/-- `ReportRepository.upsert`.  Reads `report_data["symbol"]`,
`report_data["report_type"]` and `report_data["report_year"]` with Python
indexing — a missing key raises `KeyError`, modelled as `Except.error` —
and `report_data.get("report_quarter")`, which collapses an absent key and
a present `None` value.  On a duplicate hit every payload field except `id`
overwrites the existing row (`created = false`); otherwise a fresh row is
inserted (`created = true`). -/
def upsert (st : Store) (p : Payload) :
    Except String (Store × FinancialReport × Bool) :=
  match p.symbol, p.report_type, p.report_year with
  | some sym, some ty, some yr =>
      let qt := p.report_quarter.getD none
      match st.reports.find? (matchesKey sym ty yr qt) with
      | some existing =>
          Except.ok
            ({ st with
                reports := updateFirst (matchesKey sym ty yr qt)
                  (fun r => applyUpsertUpdate r p) st.reports },
              applyUpsertUpdate existing p, false)
      | none =>
          let r := mkReport st.nextId p
          Except.ok
            ({ nextId := st.nextId + 1, reports := st.reports ++ [r] },
              r, true)
  | _, _, _ => Except.error "KeyError"

/-- Statistics returned by `upsert_bulk`. -/
structure UpsertStats where
  created : Nat
  updated : Nat
  total : Nat
  deriving DecidableEq, Repr

/-- The per-item loop of `upsert_bulk`: each iteration calls `upsert`, which
commits on its own.  An exception raised on one item stops the loop with the
commits of the earlier items retained — the first component is the store
as left behind, whether or not the loop finished. -/
def upsertLoop (st : Store) (c u : Nat) :
    List Payload → Store × Except String (Nat × Nat)
  | [] => (st, Except.ok (c, u))
  | p :: ps =>
      match upsert st p with
      | Except.ok (st1, _, created) =>
          if created then upsertLoop st1 (c + 1) u ps
          else upsertLoop st1 c (u + 1) ps
      | Except.error e => (st, Except.error e)

/-- `ReportRepository.upsert_bulk`: iterate `upsert` per item and report
`{created, updated, total}` counts, `total` being the input length. -/
def upsert_bulk (st : Store) (ps : List Payload) :
    Store × Except String UpsertStats :=
  match upsertLoop st 0 0 ps with
  | (st1, Except.ok (c, u)) =>
      (st1, Except.ok { created := c, updated := u, total := ps.length })
  | (st1, Except.error e) => (st1, Except.error e)

/-- `ReportRepository.delete_by_symbol`: bulk delete of every row whose
symbol equals `symbol.lower()`; returns the affected row count. -/
def delete_by_symbol (st : Store) (symbol : String) : Store × Nat :=
  ({ st with
      reports := st.reports.filter (fun r => !(r.symbol == normSymbol symbol)) },
    (st.reports.filter (fun r => r.symbol == normSymbol symbol)).length)

/-- `ReportRepository.count_by_symbol`. -/
def count_by_symbol (st : Store) (symbol : String) : Nat :=
  (st.reports.filter (fun r => r.symbol == normSymbol symbol)).length

/-- Ascending comparison of the nullable quarter column: SQL Server sorts
NULL first in ascending order, so NULL is below every value. -/
def optQLe : Option Int → Option Int → Bool
  | none, _ => true
  | some _, none => false
  | some x, some y => x ≤ y

/-- Strict lexicographic comparison of character lists: the collation of
the `symbol` column. -/
def listLtB : List Char → List Char → Bool
  | [], [] => false
  | [], _ :: _ => true
  | _ :: _, [] => false
  | a :: as, b :: bs =>
      if a < b then true
      else if b < a then false
      else listLtB as bs

/-- The year/quarter tail of the `ORDER BY` comparison: year descending,
then quarter ascending (NULL first) within a year. -/
def yearQuarterLE (a b : FinancialReport) : Bool :=
  if a.report_year = b.report_year then
    optQLe a.report_quarter b.report_quarter
  else
    decide (b.report_year < a.report_year)

/-- The `ORDER BY symbol, report_year DESC, report_quarter` row comparison
of `get_all`: symbol ascending, then year descending within a symbol, then
quarter ascending (NULL first) within a year. -/
def reportLE (a b : FinancialReport) : Bool :=
  if a.symbol.data = b.symbol.data then yearQuarterLE a b
  else listLtB a.symbol.data b.symbol.data

/-- The row order produced by `get_all`, as a relation. -/
def reportOrder (a b : FinancialReport) : Prop := reportLE a b = true

instance : DecidableRel reportOrder :=
  fun a b => inferInstanceAs (Decidable (reportLE a b = true))

/-- `ReportRepository.get_all`: the stored rows ordered by the `ORDER BY`
key, then paged.  Python applies `stmt.offset(offset)` under `if offset:`
and `stmt.limit(limit)` under `if limit:`, so a `0` (falsy) argument is
skipped exactly like an omitted one; SQL applies the offset before the
limit. -/
def get_all (st : Store) (limit offset : Option Nat) : List FinancialReport :=
  let sorted := List.insertionSort reportOrder st.reports
  let paged :=
    match offset with
    | some o => if o ≠ 0 then sorted.drop o else sorted
    | none => sorted
  match limit with
  | some l => if l ≠ 0 then paged.take l else paged
  | none => paged

/-!
The `DBManager` bootstrap (`backend/database/initializer.py`), modelled as a
trace oracle: `initialize` runs `verify_conn`, `db_exists`, `tables_exist`,
`sync_tables`, `tables_exist` in source order against an environment that
records what each underlying database observation returns.  The two
`tables_exist` probes bracket the synchronization step, so the environment
carries one value for each (the external database may change under a
migration run); `db_exists` is treated as stable across the call.
-/

/-- Results of the database observations made during one `initialize()`
call. -/
structure InitEnv where
  connOk : Bool
  dbExists : Bool
  tablesPre : Bool
  syncOk : Bool
  tablesPost : Bool
  deriving DecidableEq, Repr

/-- `DBManager.verify_conn`: `SELECT 1` round trip, `False` on failure. -/
def verify_conn (e : InitEnv) : Bool := e.connOk

/-- `DBManager.db_exists`: catalog lookup of the target database name. -/
def db_exists (e : InitEnv) : Bool := e.dbExists

/-- `DBManager.tables_exist`: `False` outright when `db_exists` fails,
otherwise whether the four required tables are all visible; `afterSync`
selects which of the two probes of the trace is being made. -/
def tables_exist (e : InitEnv) (afterSync : Bool) : Bool :=
  if db_exists e = false then false
  else if afterSync then e.tablesPost else e.tablesPre

/-- `DBManager.sync_tables`: refuses when `db_exists` fails, otherwise the
Alembic upgrade outcome collapsed to a boolean. -/
def sync_tables (e : InitEnv) : Bool :=
  if db_exists e = false then false else e.syncOk

/-- The `try` block of `DBManager.initialize`: connectivity failure raises
`RuntimeError` (modelled as `Except.error`); a missing database returns
`False`; missing tables make a failed sync return `False`, while with
tables present a failed sync is only logged; the final result re-probes
`tables_exist`. -/
def initializeBody (e : InitEnv) : Except String Bool :=
  if verify_conn e = false then
    Except.error "Cannot connect to SQL Server"
  else if db_exists e = false then
    Except.ok false
  else if tables_exist e false = false then
    if sync_tables e = false then
      Except.ok false
    else if tables_exist e true then Except.ok true else Except.ok false
  else
    if tables_exist e true then Except.ok true else Except.ok false

/-- `DBManager.initialize`: the `try` body wrapped in the
`except (SQLAlchemyError, RuntimeError): return False` handler, which also
catches the `RuntimeError` the body itself raises on connectivity failure. -/
def initializeDB (e : InitEnv) : Except String Bool :=
  match initializeBody e with
  | Except.error _ => Except.ok false
  | Except.ok b => Except.ok b

/-- Whether a payload carries the three keys `upsert` reads with Python `[]`
indexing (`symbol`, `report_type`, `report_year`); without them the lookup
raises `KeyError`. -/
def hasBusinessKey (p : Payload) : Bool :=
  p.symbol.isSome && p.report_type.isSome && p.report_year.isSome

/-- The store left behind by iterating `upsert` over a list of payloads,
stopping at the first item that raises: since every successful `upsert`
commits on its own, these commits are what the database retains even when a
later item fails. -/
def runUpserts (st : Store) : List Payload → Store
  | [] => st
  | p :: ps =>
      match upsert st p with
      | Except.ok (st1, _, _) => runUpserts st1 ps
      | Except.error _ => st

/-- Fixture row `(A, 2022, Q2)` of the spec's ordering example. -/
def fixQ2 : FinancialReport :=
  { id := 1, symbol := "a", report_type := "quarterly", report_year := 2022,
    report_quarter := some 2, content := "q2" }

/-- Fixture row `(A, 2023, None)` of the spec's ordering example. -/
def fixNone : FinancialReport :=
  { id := 2, symbol := "a", report_type := "annual", report_year := 2023,
    report_quarter := none, content := "an" }

/-- Fixture row `(A, 2022, Q1)` of the spec's ordering example. -/
def fixQ1 : FinancialReport :=
  { id := 3, symbol := "a", report_type := "quarterly", report_year := 2022,
    report_quarter := some 1, content := "q1" }

/-- Fixture store holding the ordering example rows in insertion order
`[(A,2022,Q2), (A,2023,None), (A,2022,Q1)]`. -/
def fixStore : Store := { nextId := 4, reports := [fixQ2, fixNone, fixQ1] }

/-- A store holding one annual report with id 1. -/
def soloReport : FinancialReport :=
  { id := 1, symbol := "acme", report_type := "annual", report_year := 2020,
    report_quarter := none, content := "body" }

/-- Store containing only `soloReport`. -/
def soloStore : Store := { nextId := 2, reports := [soloReport] }

/-- A store holding a single record whose quarter is (incorrectly) stored
as `0` rather than NULL, for exercising the null-partition behavior. -/
def zeroQuarterStore : Store :=
  { nextId := 2,
    reports := [{ id := 1, symbol := "xyz", report_type := "annual",
                  report_year := 2023, report_quarter := some 0,
                  content := "z" }] }

/-- The empty store with the id counter at 1. -/
def emptyStore : Store := { nextId := 1, reports := [] }

/-- The record with business key `("abc", "annual", 2020, NULL)`, id 1 and
content `c`. -/
def keyedReport (c : String) : FinancialReport :=
  { id := 1, symbol := "abc", report_type := "annual", report_year := 2020,
    report_quarter := none, content := c }

/-- Store holding `keyedReport c` only. -/
def keyedStore (c : String) : Store := { nextId := 2, reports := [keyedReport c] }

/-- Payload with the business key `("ABC", "annual", 2020)` (upper-case
symbol, no quarter key) and content `c`. -/
def payloadUpper (c : String) : Payload :=
  { symbol := some "ABC", report_type := some "annual",
    report_year := some 2020, content := some c }

/-- Payload with the business key `("abc", "annual", 2020)` (lower-case
symbol, no quarter key) and content `c`. -/
def payloadLower (c : String) : Payload :=
  { symbol := some "abc", report_type := some "annual",
    report_year := some 2020, content := some c }

/-- Trace on which `verify_conn` fails but everything downstream would
succeed. -/
def envConnFail : InitEnv :=
  { connOk := false, dbExists := true, tablesPre := true, syncOk := true,
    tablesPost := true }

/-- Trace on which connectivity and database existence succeed, the tables
already exist, and the synchronization step fails. -/
def envTablesSyncFail : InitEnv :=
  { connOk := true, dbExists := true, tablesPre := true, syncOk := false,
    tablesPost := true }

/-- Trace on which connectivity and database existence succeed, the tables
are missing, the synchronization step fails, yet the tables are present at
the final probe (a partially applied migration run created them before the
failing revision). -/
def envMissingSyncFail : InitEnv :=
  { connOk := true, dbExists := true, tablesPre := false, syncOk := false,
    tablesPost := true }

/-! Order lemmas for the `get_all` comparison. -/

theorem listLtB_irrefl : ∀ l : List Char, listLtB l l = false := by
  intro l
  induction l with
  | nil => rfl
  | cons a as ih => simp [listLtB, ih]

theorem listLtB_connex : ∀ {l₁ l₂ : List Char},
    listLtB l₁ l₂ = false → listLtB l₂ l₁ = false → l₁ = l₂ := by
  intro l₁
  induction l₁ with
  | nil =>
    intro l₂ h₁ _
    cases l₂ with
    | nil => rfl
    | cons b bs => simp [listLtB] at h₁
  | cons a as ih =>
    intro l₂ h₁ h₂
    cases l₂ with
    | nil => simp [listLtB] at h₂
    | cons b bs =>
      by_cases hab : a < b
      · simp [listLtB, hab] at h₁
      · by_cases hba : b < a
        · simp [listLtB, hba] at h₂
        · have hch : a = b := le_antisymm (not_lt.mp hba) (not_lt.mp hab)
          subst hch
          simp only [listLtB, lt_irrefl, if_false] at h₁ h₂
          rw [ih h₁ h₂]

theorem listLtB_trans : ∀ {l₁ l₂ l₃ : List Char},
    listLtB l₁ l₂ = true → listLtB l₂ l₃ = true → listLtB l₁ l₃ = true := by
  intro l₁
  induction l₁ with
  | nil =>
    intro l₂ l₃ h₁ h₂
    cases l₂ with
    | nil => simp [listLtB] at h₁
    | cons b bs =>
      cases l₃ with
      | nil => simp [listLtB] at h₂
      | cons c cs => simp [listLtB]
  | cons a as ih =>
    intro l₂ l₃ h₁ h₂
    cases l₂ with
    | nil => simp [listLtB] at h₁
    | cons b bs =>
      cases l₃ with
      | nil => simp [listLtB] at h₂
      | cons c cs =>
        by_cases hab : a < b
        · by_cases hbc : b < c
          · simp [listLtB, lt_trans hab hbc]
          · by_cases hcb : c < b
            · simp [listLtB, hbc, hcb] at h₂
            · have hch : b = c := le_antisymm (not_lt.mp hcb) (not_lt.mp hbc)
              subst hch
              simp [listLtB, hab]
        · by_cases hba : b < a
          · simp [listLtB, hab, hba] at h₁
          · have hch : a = b := le_antisymm (not_lt.mp hba) (not_lt.mp hab)
            subst hch
            by_cases hac : a < c
            · simp [listLtB, hac]
            · by_cases hca : c < a
              · simp [listLtB, hac, hca] at h₂
              · simp only [listLtB, lt_irrefl, if_false, hac, hca] at h₁ h₂ ⊢
                exact ih h₁ h₂

theorem optQLe_total : ∀ q₁ q₂ : Option Int,
    optQLe q₁ q₂ = true ∨ optQLe q₂ q₁ = true := by
  intro q₁ q₂
  cases q₁ <;> cases q₂ <;> simp [optQLe] <;> omega

theorem optQLe_trans : ∀ {q₁ q₂ q₃ : Option Int},
    optQLe q₁ q₂ = true → optQLe q₂ q₃ = true → optQLe q₁ q₃ = true := by
  intro q₁ q₂ q₃ h₁ h₂
  cases q₁ <;> cases q₂ <;> cases q₃ <;> simp_all [optQLe] <;> omega

theorem yearQuarterLE_total (a b : FinancialReport) :
    yearQuarterLE a b = true ∨ yearQuarterLE b a = true := by
  unfold yearQuarterLE
  by_cases hab : a.report_year = b.report_year
  · rw [if_pos hab, if_pos hab.symm]
    exact optQLe_total _ _
  · rw [if_neg hab, if_neg (fun h => hab h.symm)]
    rcases lt_or_gt_of_ne hab with h | h
    · right; exact decide_eq_true h
    · left; exact decide_eq_true h

theorem yearQuarterLE_trans (a b c : FinancialReport)
    (h₁ : yearQuarterLE a b = true) (h₂ : yearQuarterLE b c = true) :
    yearQuarterLE a c = true := by
  unfold yearQuarterLE at h₁ h₂ ⊢
  by_cases hab : a.report_year = b.report_year <;>
    by_cases hbc : b.report_year = c.report_year
  · rw [if_pos hab] at h₁
    rw [if_pos hbc] at h₂
    rw [if_pos (hab.trans hbc)]
    exact optQLe_trans h₁ h₂
  · rw [if_neg hbc] at h₂
    have h2l : c.report_year < b.report_year := of_decide_eq_true h₂
    have hac : ¬ a.report_year = c.report_year := by omega
    rw [if_neg hac]
    exact decide_eq_true (by omega)
  · rw [if_neg hab] at h₁
    have h1l : b.report_year < a.report_year := of_decide_eq_true h₁
    have hac : ¬ a.report_year = c.report_year := by omega
    rw [if_neg hac]
    exact decide_eq_true (by omega)
  · rw [if_neg hab] at h₁
    rw [if_neg hbc] at h₂
    have h1l : b.report_year < a.report_year := of_decide_eq_true h₁
    have h2l : c.report_year < b.report_year := of_decide_eq_true h₂
    have hac : ¬ a.report_year = c.report_year := by omega
    rw [if_neg hac]
    exact decide_eq_true (by omega)

theorem reportLE_total (a b : FinancialReport) :
    reportLE a b = true ∨ reportLE b a = true := by
  unfold reportLE
  by_cases hs : a.symbol.data = b.symbol.data
  · rw [if_pos hs, if_pos hs.symm]
    exact yearQuarterLE_total a b
  · rw [if_neg hs, if_neg (fun h => hs h.symm)]
    cases hab : listLtB a.symbol.data b.symbol.data
    · cases hba : listLtB b.symbol.data a.symbol.data
      · exact absurd (listLtB_connex hab hba) hs
      · right; rfl
    · left; rfl

theorem reportLE_trans (a b c : FinancialReport)
    (h₁ : reportLE a b = true) (h₂ : reportLE b c = true) :
    reportLE a c = true := by
  unfold reportLE at h₁ h₂ ⊢
  by_cases hsab : a.symbol.data = b.symbol.data <;>
    by_cases hsbc : b.symbol.data = c.symbol.data
  · rw [if_pos hsab] at h₁
    rw [if_pos hsbc] at h₂
    rw [if_pos (hsab.trans hsbc)]
    exact yearQuarterLE_trans a b c h₁ h₂
  · rw [if_neg hsbc] at h₂
    have hsac : ¬ a.symbol.data = c.symbol.data := fun h => hsbc (hsab ▸ h)
    rw [if_neg hsac, hsab]
    exact h₂
  · rw [if_neg hsab] at h₁
    have hsac : ¬ a.symbol.data = c.symbol.data := fun h => hsab (hsbc ▸ h)
    rw [if_neg hsac, ← hsbc]
    exact h₁
  · rw [if_neg hsab] at h₁
    rw [if_neg hsbc] at h₂
    have hlt := listLtB_trans h₁ h₂
    have hsac : ¬ a.symbol.data = c.symbol.data := by
      intro h
      rw [h] at h₁
      have := listLtB_trans h₂ h₁
      rw [listLtB_irrefl] at this
      exact Bool.false_ne_true this
    rw [if_neg hsac]
    exact hlt

/-- C9: `get_all` returns the stored records totally ordered by the
`ORDER BY` comparison — symbol ascending, then report_year descending,
then report_quarter ascending: the result is a permutation of the stored
rows that is pairwise ordered by `reportOrder`; on the spec's fixture
store `[(A,2022,Q2), (A,2023,None), (A,2022,Q1)]` the returned order is
`[(A,2023,None), (A,2022,Q1), (A,2022,Q2)]`. -/
theorem get_all_ordered :
    (∀ st : Store,
        (get_all st none none).Perm st.reports ∧
        List.Pairwise reportOrder (get_all st none none)) ∧
    get_all fixStore none none = [fixNone, fixQ1, fixQ2] := by
  constructor
  · intro st
    constructor
    · exact List.perm_insertionSort reportOrder st.reports
    · exact @List.sorted_insertionSort FinancialReport reportOrder _
        ⟨fun a b => reportLE_total a b⟩ ⟨reportLE_trans⟩ st.reports
  · decide

/-- C10: `get_all` treats a limit of 0 and an offset of 0 exactly like an
omitted parameter (Python falsy check `if limit:` / `if offset:`): passing
`some 0` yields the same result as passing `none`, so only strictly
positive values restrict the output. -/
theorem get_all_zero_means_unbounded :
    ∀ (st : Store) (lim off : Option Nat),
      get_all st (some 0) off = get_all st none off ∧
      get_all st lim (some 0) = get_all st lim none := by
  intro st lim off
  exact ⟨rfl, rfl⟩

/-- Evaluation of `initialize()` once connectivity and database existence
succeed: the result is the final `tables_exist` probe, except that the
branch with tables initially missing and a failed sync returns `false`
outright. -/
theorem initializeDB_eval (e : InitEnv)
    (hconn : verify_conn e = true) (hdb : db_exists e = true) :
    initializeDB e =
      Except.ok
        (if tables_exist e false = false ∧ sync_tables e = false then false
         else tables_exist e true) := by
  unfold initializeDB initializeBody
  rw [hconn, hdb]
  simp only [Bool.true_eq_false, if_false]
  by_cases hpre : tables_exist e false = false
  · rw [if_pos hpre]
    by_cases hsync : sync_tables e = false
    · rw [if_pos hsync, if_pos ⟨hpre, hsync⟩]
    · rw [if_neg hsync]
      rw [if_neg (show ¬(tables_exist e false = false ∧ sync_tables e = false)
        from fun h => hsync h.2)]
      cases h : tables_exist e true <;> simp [h]
  · rw [if_neg hpre]
    rw [if_neg (show ¬(tables_exist e false = false ∧ sync_tables e = false)
      from fun h => hpre h.1)]
    cases h : tables_exist e true <;> simp [h]

/-- C3 (counterexample): on a trace where `verify_conn` fails, the claim
says `initialize()` escalates a fatal error out of the call; in the code
the `try` body does raise `RuntimeError`, but `initialize`'s own
`except (SQLAlchemyError, RuntimeError)` handler catches it and the call
returns the boolean `false` — no error propagates. -/
theorem initializeDB_conn_failure_cex :
    verify_conn envConnFail = false ∧
    initializeBody envConnFail = Except.error "Cannot connect to SQL Server" ∧
    initializeDB envConnFail = Except.ok false :=
  ⟨rfl, rfl, rfl⟩

/-- C3 (amended): when `verify_conn` fails during `initialize()`, the body
raises `RuntimeError` — skipping every later step — but the call's own
exception handler converts it into the return value `false`, the same
boolean failure signal as every other failed step; nothing propagates out
of `initialize()`. -/
theorem initializeDB_conn_failure_returns_false (e : InitEnv)
    (h : verify_conn e = false) :
    initializeBody e = Except.error "Cannot connect to SQL Server" ∧
    initializeDB e = Except.ok false := by
  have hbody : initializeBody e = Except.error "Cannot connect to SQL Server" := by
    unfold initializeBody
    rw [h]
    rfl
  exact ⟨hbody, by rw [initializeDB, hbody]⟩

/-- Witness for the amended C3 at a concrete trace. -/
theorem initializeDB_conn_failure_returns_false_witness :
    initializeBody envConnFail = Except.error "Cannot connect to SQL Server" ∧
    initializeDB envConnFail = Except.ok false :=
  initializeDB_conn_failure_returns_false envConnFail rfl

/-- C4 (counterexample): on a trace where connectivity and database
existence succeed, the tables already exist before synchronization, the
sync fails, and the tables still exist afterwards, the claim says
`initialize()` returns false; the code only logs a warning and returns the
final `tables_exist` probe, which is true. -/
theorem initializeDB_tables_exist_sync_fail_cex :
    verify_conn envTablesSyncFail = true ∧
    db_exists envTablesSyncFail = true ∧
    tables_exist envTablesSyncFail false = true ∧
    sync_tables envTablesSyncFail = false ∧
    initializeDB envTablesSyncFail = Except.ok true :=
  ⟨rfl, rfl, rfl, rfl, rfl⟩

/-- C4 (amended): if connectivity and database existence succeed, the
tables exist before synchronization, and `sync_tables` fails, then
`initialize()` does not abort and returns the result of the final
`tables_exist` probe — true when the tables still exist after the failed
sync, false only when they no longer do. -/
theorem initializeDB_tables_exist_sync_fail_tolerated (e : InitEnv)
    (hconn : verify_conn e = true) (hdb : db_exists e = true)
    (hpre : tables_exist e false = true) (hsync : sync_tables e = false) :
    initializeDB e = Except.ok (tables_exist e true) := by
  rw [initializeDB_eval e hconn hdb,
    if_neg (fun h => by rw [hpre] at h; exact Bool.true_eq_false.mp h.1)]

/-- Witness for the amended C4 at a concrete trace. -/
theorem initializeDB_tables_exist_sync_fail_tolerated_witness :
    initializeDB envTablesSyncFail =
      Except.ok (tables_exist envTablesSyncFail true) ∧
    tables_exist envTablesSyncFail true = true :=
  ⟨initializeDB_tables_exist_sync_fail_tolerated envTablesSyncFail
      rfl rfl rfl rfl,
    rfl⟩

/-- C5 (counterexample): on a trace where connectivity and database
existence succeed, the tables are missing before synchronization, the sync
fails, and the tables nevertheless exist at the final probe, the claim's
"true iff `tables_exist()` holds after synchronization" demands true; the
code returns false from the missing-tables branch without re-probing. -/
theorem initializeDB_result_iff_cex :
    verify_conn envMissingSyncFail = true ∧
    db_exists envMissingSyncFail = true ∧
    tables_exist envMissingSyncFail false = false ∧
    sync_tables envMissingSyncFail = false ∧
    tables_exist envMissingSyncFail true = true ∧
    initializeDB envMissingSyncFail = Except.ok false :=
  ⟨rfl, rfl, rfl, rfl, rfl, rfl⟩

/-- C5 (amended): given that connectivity and database existence succeed,
`initialize()` returns true iff `tables_exist()` holds after the
synchronization step — except in the branch where the tables were
initially missing and `sync_tables` failed, where it returns false without
re-probing `tables_exist()`. -/
theorem initializeDB_result_iff_tables_exist (e : InitEnv)
    (hconn : verify_conn e = true) (hdb : db_exists e = true) :
    (¬(tables_exist e false = false ∧ sync_tables e = false) →
        (initializeDB e = Except.ok true ↔ tables_exist e true = true)) ∧
    (tables_exist e false = false ∧ sync_tables e = false →
        initializeDB e = Except.ok false) := by
  constructor
  · intro hno
    rw [initializeDB_eval e hconn hdb, if_neg hno]
    cases h : tables_exist e true <;> simp [h]
  · intro hyes
    rw [initializeDB_eval e hconn hdb, if_pos hyes]

/-- Witness for the amended C5 at concrete traces: both sides of the
conjunction applied at explicit environments. -/
theorem initializeDB_result_iff_tables_exist_witness :
    (initializeDB envTablesSyncFail = Except.ok true ↔
      tables_exist envTablesSyncFail true = true) ∧
    initializeDB envMissingSyncFail = Except.ok false :=
  ⟨(initializeDB_result_iff_tables_exist envTablesSyncFail rfl rfl).1
      (by decide),
    (initializeDB_result_iff_tables_exist envMissingSyncFail rfl rfl).2
      ⟨rfl, rfl⟩⟩

/-- C6 (code at the failing input): the claim — and the spec's data model —
say the surrogate id is immutable under every modifying operation, and
`upsert` indeed guards `key != "id"`, but `update`'s attribute loop has no
such guard: on a store holding the single record with id 1, calling
`update(1, {"id": 99})` overwrites the stored record's id with 99, after
which no record with id 1 exists. -/
theorem update_overwrites_id_at_failing_input :
    (update soloStore 1 { id := some 99 }).1.reports =
      [{ soloReport with id := 99 }] ∧
    (update soloStore 1 { id := some 99 }).2 =
      some { soloReport with id := 99 } ∧
    get_by_id (update soloStore 1 { id := some 99 }).1 1 = none ∧
    (upsert soloStore
        { id := some 99, symbol := some "ACME", report_type := some "annual",
          report_year := some 2020, report_quarter := some none,
          content := some "body2" } =
      Except.ok ({ soloStore with
          reports := [{ soloReport with content := "body2" }] },
        { soloReport with content := "body2" }, false)) := by
  exact ⟨by decide, by decide, by decide, rfl⟩

/-- C7: `find_duplicate` keeps the null and non-null quarter partitions
disjoint: with no quarter argument it only ever returns a record whose
stored quarter is NULL, and with a quarter argument it only ever returns a
record whose stored quarter equals that value — a record with quarter 0 is
in particular never returned by the null branch. -/
theorem find_duplicate_null_partition :
    (∀ (st : Store) (sym ty : String) (yr : Int) (r : FinancialReport),
        find_duplicate st sym ty yr none = some r → r.report_quarter = none) ∧
    (∀ (st : Store) (sym ty : String) (yr q : Int) (r : FinancialReport),
        find_duplicate st sym ty yr (some q) = some r →
          r.report_quarter = some q) := by
  constructor
  · intro st sym ty yr r h
    simp only [find_duplicate] at h
    have hm := List.find?_some h
    simp only [matchesKey, Bool.and_eq_true, Option.isNone_iff_eq_none] at hm
    exact hm.2
  · intro st sym ty yr q r h
    simp only [find_duplicate] at h
    have hm := List.find?_some h
    simp only [matchesKey, Bool.and_eq_true, beq_iff_eq] at hm
    exact hm.2

/-- Witness for C7 at concrete stores, including the quarter-0 store the
spec singles out: the null branch does not return the quarter-0 record. -/
theorem find_duplicate_null_partition_witness :
    find_duplicate soloStore "ACME" "annual" 2020 none = some soloReport ∧
    soloReport.report_quarter = none ∧
    find_duplicate fixStore "a" "quarterly" 2022 (some 1) = some fixQ1 ∧
    fixQ1.report_quarter = some 1 ∧
    find_duplicate zeroQuarterStore "xyz" "annual" 2023 none = none :=
  ⟨by decide,
    find_duplicate_null_partition.1 soloStore "ACME" "annual" 2020 soloReport
      (by decide),
    by decide,
    find_duplicate_null_partition.2 fixStore "a" "quarterly" 2022 1 fixQ1
      (by decide),
    by decide⟩

/-! Helper lemmas about the repository operations. -/

theorem matchesKey_congr {s₁ s₂ : String} (h : normSymbol s₁ = normSymbol s₂)
    (ty : String) (yr : Int) (qt : Option Int) (r : FinancialReport) :
    matchesKey s₁ ty yr qt r = matchesKey s₂ ty yr qt r := by
  simp [matchesKey, h]

theorem updateFirst_append (p : FinancialReport → Bool)
    (f : FinancialReport → FinancialReport) :
    ∀ {l₁ l₂ : List FinancialReport}, (∀ x ∈ l₁, p x = false) →
      updateFirst p f (l₁ ++ l₂) = l₁ ++ updateFirst p f l₂ := by
  intro l₁
  induction l₁ with
  | nil => intro l₂ _; rfl
  | cons a as ih =>
    intro l₂ h
    have ha := h a (List.mem_cons_self a as)
    simp [updateFirst, ha, ih (fun x hx => h x (List.mem_cons_of_mem a hx))]

theorem mkReports_getElem? : ∀ (ps : List Payload) (n i : Nat),
    (mkReports n ps)[i]? = (ps[i]?).map (mkReport (n + i)) := by
  intro ps
  induction ps with
  | nil => intro n i; simp [mkReports]
  | cons p ps ih =>
    intro n i
    cases i with
    | zero => simp [mkReports]
    | succ j =>
      simp only [mkReports, List.getElem?_cons_succ]
      rw [ih (n + 1) j]
      have harith : n + 1 + j = n + (j + 1) := by omega
      rw [harith]

theorem upsert_eval (st : Store) (p : Payload) (s ty : String) (yr : Int)
    (hs : p.symbol = some s) (ht : p.report_type = some ty)
    (hy : p.report_year = some yr) :
    upsert st p =
      match st.reports.find?
          (matchesKey s ty yr (p.report_quarter.getD none)) with
      | some existing =>
          Except.ok
            ({ st with
                reports := updateFirst
                  (matchesKey s ty yr (p.report_quarter.getD none))
                  (fun r => applyUpsertUpdate r p) st.reports },
              applyUpsertUpdate existing p, false)
      | none =>
          Except.ok
            ({ nextId := st.nextId + 1,
                reports := st.reports ++ [mkReport st.nextId p] },
              mkReport st.nextId p, true) := by
  unfold upsert
  rw [hs, ht, hy]

theorem upsert_keyerror (st : Store) (p : Payload)
    (h : hasBusinessKey p = false) : upsert st p = Except.error "KeyError" := by
  unfold upsert
  cases hs : p.symbol with
  | none => rfl
  | some s =>
    cases ht : p.report_type with
    | none => rfl
    | some t =>
      cases hy : p.report_year with
      | none => rfl
      | some y =>
        exfalso
        simp [hasBusinessKey, hs, ht, hy] at h

theorem upsert_ok_of_hasKey (st : Store) (p : Payload)
    (h : hasBusinessKey p = true) :
    ∃ st1 r b, upsert st p = Except.ok (st1, r, b) := by
  rw [hasBusinessKey, Bool.and_eq_true, Bool.and_eq_true] at h
  obtain ⟨⟨hs, ht⟩, hy⟩ := h
  rw [Option.isSome_iff_exists] at hs ht hy
  obtain ⟨s, hs⟩ := hs
  obtain ⟨t, ht⟩ := ht
  obtain ⟨y, hy⟩ := hy
  rw [upsert_eval st p s t y hs ht hy]
  cases st.reports.find? (matchesKey s t y (p.report_quarter.getD none)) with
  | some ex => exact ⟨_, _, _, rfl⟩
  | none => exact ⟨_, _, _, rfl⟩

/-- C1: symbol normalization is applied on every path — the rows stored by
`add`, `add_bulk`, `update` and `upsert` carry the lowercase form of the
payload's symbol, and `get_by_symbol`, `find_duplicate`,
`delete_by_symbol` and `count_by_symbol` compare against the lowercase
form of their argument, so any two symbol arguments with the same lowercase
form are interchangeable on the read paths. -/
theorem symbol_case_normalized :
    (∀ (st : Store) (p : Payload) (s : String),
        p.symbol = some s → ((add st p).2).symbol = normSymbol s) ∧
    (∀ (st : Store) (ps : List Payload) (i : Nat) (p : Payload) (s : String),
        ps[i]? = some p → p.symbol = some s →
        ∃ r, ((add_bulk st ps).2)[i]? = some r ∧ r.symbol = normSymbol s) ∧
    (∀ (st : Store) (n : Nat) (p : Payload) (s : String) (r : FinancialReport),
        p.symbol = some s → (update st n p).2 = some r →
        r.symbol = normSymbol s) ∧
    (∀ (st : Store) (p : Payload) (s : String) (st1 : Store)
        (r : FinancialReport) (b : Bool),
        p.symbol = some s → upsert st p = Except.ok (st1, r, b) →
        r.symbol = normSymbol s) ∧
    (∀ (st : Store) (s₁ s₂ : String), normSymbol s₁ = normSymbol s₂ →
        get_by_symbol st s₁ = get_by_symbol st s₂ ∧
        (∀ (ty : String) (yr : Int) (qt : Option Int),
            find_duplicate st s₁ ty yr qt = find_duplicate st s₂ ty yr qt) ∧
        delete_by_symbol st s₁ = delete_by_symbol st s₂ ∧
        count_by_symbol st s₁ = count_by_symbol st s₂) := by
  refine ⟨?_, ?_, ?_, ?_, ?_⟩
  · intro st p s hs
    simp [add, mkReport, hs]
  · intro st ps i p s hget hs
    refine ⟨mkReport (st.nextId + i) p, ?_, ?_⟩
    · show (mkReports st.nextId ps)[i]? = _
      rw [mkReports_getElem?, hget]
      rfl
    · simp [mkReport, hs]
  · intro st n p s r hs hup
    unfold update at hup
    cases hfind : st.reports.find? (fun x => x.id == n) with
    | none => rw [hfind] at hup; simp at hup
    | some r₀ =>
      rw [hfind] at hup
      simp only [Option.some.injEq] at hup
      rw [← hup]
      simp [applyUpdate, hs]
  · intro st p s st1 r b hs hok
    cases ht : p.report_type with
    | none =>
      unfold upsert at hok
      rw [hs, ht] at hok
      simp at hok
    | some t =>
      cases hy : p.report_year with
      | none =>
        unfold upsert at hok
        rw [hs, ht, hy] at hok
        simp at hok
      | some y =>
        rw [upsert_eval st p s t y hs ht hy] at hok
        cases hfind : st.reports.find?
            (matchesKey s t y (p.report_quarter.getD none)) with
        | some ex =>
          rw [hfind] at hok
          simp only [Except.ok.injEq, Prod.mk.injEq] at hok
          obtain ⟨h1, h2, h3⟩ := hok
          rw [← h2]
          simp [applyUpsertUpdate, hs]
        | none =>
          rw [hfind] at hok
          simp only [Except.ok.injEq, Prod.mk.injEq] at hok
          obtain ⟨h1, h2, h3⟩ := hok
          rw [← h2]
          simp [mkReport, hs]
  · intro st s₁ s₂ h
    refine ⟨?_, ?_, ?_, ?_⟩
    · simp [get_by_symbol, h]
    · intro ty yr qt
      unfold find_duplicate
      congr 1
      funext r
      exact matchesKey_congr h ty yr qt r
    · simp [delete_by_symbol, h]
    · simp [count_by_symbol, h]

/-- Witness for C1 at concrete inputs: `add` stores the lower-cased symbol
of an upper-cased payload, and `get_by_symbol` cannot distinguish two
casings of one symbol. -/
theorem symbol_case_normalized_witness :
    ((add soloStore { symbol := some "AbC" }).2).symbol = normSymbol "AbC" ∧
    normSymbol "AbC" = "abc" ∧
    get_by_symbol soloStore "ACME" = get_by_symbol soloStore "acme" :=
  ⟨symbol_case_normalized.1 soloStore { symbol := some "AbC" } "AbC" rfl,
    by decide,
    (symbol_case_normalized.2.2.2.2 soloStore "ACME" "acme" (by decide)).1⟩

/-- C2: `upsert` is idempotent on the business key
`(symbol, report_type, report_year, report_quarter)`: starting from a
store free of the key, a first `upsert` reports `created = true`, a second
`upsert` with any payload carrying the same key reports `created = false`,
exactly one stored record carries the key afterwards, and that record's
content is the second payload's. -/
theorem upsert_idempotent_on_business_key
    (st0 st1 st2 : Store) (p1 p2 : Payload) (r1 r2 : FinancialReport)
    (c1 c2 : Bool) (s1 s2 ty : String) (yr : Int) (qt : Option Int)
    (body : String)
    (h1s : p1.symbol = some s1) (h2s : p2.symbol = some s2)
    (hss : normSymbol s1 = normSymbol s2)
    (h1t : p1.report_type = some ty) (h2t : p2.report_type = some ty)
    (h1y : p1.report_year = some yr) (h2y : p2.report_year = some yr)
    (h1q : p1.report_quarter.getD none = qt)
    (h2q : p2.report_quarter.getD none = qt)
    (h2c : p2.content = some body)
    (hfree : ∀ r ∈ st0.reports, matchesKey s1 ty yr qt r = false)
    (hu1 : upsert st0 p1 = Except.ok (st1, r1, c1))
    (hu2 : upsert st1 p2 = Except.ok (st2, r2, c2)) :
    c1 = true ∧ c2 = false ∧
    (st2.reports.filter (matchesKey s2 ty yr qt)).length = 1 ∧
    r2 ∈ st2.reports ∧
    r2.symbol = normSymbol s2 ∧ r2.report_type = ty ∧
    r2.report_year = yr ∧ r2.report_quarter = qt ∧ r2.content = body := by
  have hfind0 : st0.reports.find? (matchesKey s1 ty yr qt) = none :=
    List.find?_eq_none.mpr (fun x hx => by simp [hfree x hx])
  rw [upsert_eval st0 p1 s1 ty yr h1s h1t h1y, h1q, hfind0] at hu1
  simp only [Except.ok.injEq, Prod.mk.injEq] at hu1
  obtain ⟨hst1, hr1, hc1⟩ := hu1
  have hkey1 : matchesKey s2 ty yr qt (mkReport st0.nextId p1) = true := by
    rw [← matchesKey_congr hss ty yr qt (mkReport st0.nextId p1)]
    cases qt with
    | none => simp [matchesKey, mkReport, h1s, h1t, h1y, h1q]
    | some q => simp [matchesKey, mkReport, h1s, h1t, h1y, h1q]
  have hfront : ∀ x ∈ st0.reports, matchesKey s2 ty yr qt x = false :=
    fun x hx => by
      rw [← matchesKey_congr hss ty yr qt x]
      exact hfree x hx
  have hfind1 : (st0.reports ++ [mkReport st0.nextId p1]).find?
      (matchesKey s2 ty yr qt) = some (mkReport st0.nextId p1) := by
    rw [List.find?_append,
      List.find?_eq_none.mpr (fun x hx => by simp [hfront x hx])]
    simp [hkey1]
  subst hst1
  rw [upsert_eval _ p2 s2 ty yr h2s h2t h2y, h2q] at hu2
  dsimp only at hu2
  rw [hfind1] at hu2
  rw [updateFirst_append (matchesKey s2 ty yr qt)
    (fun r => applyUpsertUpdate r p2) hfront] at hu2
  rw [show updateFirst (matchesKey s2 ty yr qt)
      (fun r => applyUpsertUpdate r p2) [mkReport st0.nextId p1] =
      [applyUpsertUpdate (mkReport st0.nextId p1) p2] by
    simp [updateFirst, hkey1]] at hu2
  simp only [Except.ok.injEq, Prod.mk.injEq] at hu2
  obtain ⟨hst2, hr2, hc2⟩ := hu2
  have hqr2 : (applyUpsertUpdate (mkReport st0.nextId p1) p2).report_quarter
      = qt := by
    cases hp2q : p2.report_quarter with
    | none =>
      simp only [applyUpsertUpdate, hp2q, Option.getD_none, mkReport]
      rw [h1q]
    | some q2 =>
      rw [hp2q] at h2q
      simp only [applyUpsertUpdate, hp2q, Option.getD_some]
      simpa using h2q
  have hsym2 : (applyUpsertUpdate (mkReport st0.nextId p1) p2).symbol =
      normSymbol s2 := by simp [applyUpsertUpdate, h2s]
  have hty2 : (applyUpsertUpdate (mkReport st0.nextId p1) p2).report_type =
      ty := by simp [applyUpsertUpdate, h2t]
  have hyr2 : (applyUpsertUpdate (mkReport st0.nextId p1) p2).report_year =
      yr := by simp [applyUpsertUpdate, h2y]
  have hkey2 : matchesKey s2 ty yr qt
      (applyUpsertUpdate (mkReport st0.nextId p1) p2) = true := by
    cases qt with
    | none =>
      simp [matchesKey, hsym2, hty2, hyr2, Option.isNone_iff_eq_none, hqr2]
    | some q =>
      simp [matchesKey, hsym2, hty2, hyr2, hqr2]
  subst hst2
  subst hr2
  refine ⟨hc1.symm, hc2.symm, ?_, ?_, ?_, ?_, ?_, ?_, ?_⟩
  · dsimp only
    rw [List.filter_append,
      List.filter_eq_nil_iff.mpr (fun x hx => by simp [hfront x hx])]
    simp [hkey2]
  · dsimp only
    simp
  · simp [applyUpsertUpdate, h2s]
  · simp [applyUpsertUpdate, h2t]
  · simp [applyUpsertUpdate, h2y]
  · exact hqr2
  · simp [applyUpsertUpdate, h2c]

/-- Witness for C2: two concrete payloads sharing the business key
`("abc", "annual", 2020, NULL)` in different casings, upserted into the
empty store. -/
theorem upsert_idempotent_on_business_key_witness :
    true = true ∧ false = false ∧
    ((keyedStore "v2").reports.filter
      (matchesKey "abc" "annual" 2020 none)).length = 1 ∧
    keyedReport "v2" ∈ (keyedStore "v2").reports ∧
    (keyedReport "v2").symbol = normSymbol "abc" ∧
    (keyedReport "v2").report_type = "annual" ∧
    (keyedReport "v2").report_year = 2020 ∧
    (keyedReport "v2").report_quarter = none ∧
    (keyedReport "v2").content = "v2" :=
  upsert_idempotent_on_business_key emptyStore (keyedStore "v1")
    (keyedStore "v2") (payloadUpper "v1") (payloadLower "v2")
    (keyedReport "v1") (keyedReport "v2")
    true false "ABC" "abc" "annual" 2020 none "v2"
    rfl rfl (by decide) rfl rfl rfl rfl rfl rfl rfl
    (by decide) rfl rfl

theorem upsertLoop_ok : ∀ (ps : List Payload) (st : Store) (c u : Nat),
    (∀ p ∈ ps, hasBusinessKey p = true) →
    ∃ c2 u2, upsertLoop st c u ps = (runUpserts st ps, Except.ok (c2, u2)) := by
  intro ps
  induction ps with
  | nil => intro st c u _; exact ⟨c, u, rfl⟩
  | cons p ps ih =>
    intro st c u h
    obtain ⟨st1, r, b, hok⟩ :=
      upsert_ok_of_hasKey st p (h p (List.mem_cons_self p ps))
    have hrest := fun q hq => h q (List.mem_cons_of_mem p hq)
    cases b with
    | false =>
      obtain ⟨c2, u2, hl⟩ := ih st1 c (u + 1) hrest
      exact ⟨c2, u2, by simp [upsertLoop, runUpserts, hok, hl]⟩
    | true =>
      obtain ⟨c2, u2, hl⟩ := ih st1 (c + 1) u hrest
      exact ⟨c2, u2, by simp [upsertLoop, runUpserts, hok, hl]⟩

theorem upsertLoop_err : ∀ (ps1 : List Payload) (st : Store) (c u : Nat)
    (bad : Payload) (ps2 : List Payload),
    (∀ p ∈ ps1, hasBusinessKey p = true) → hasBusinessKey bad = false →
    upsertLoop st c u (ps1 ++ bad :: ps2) =
      (runUpserts st ps1, Except.error "KeyError") := by
  intro ps1
  induction ps1 with
  | nil =>
    intro st c u bad ps2 _ hbad
    simp [upsertLoop, runUpserts, upsert_keyerror st bad hbad]
  | cons p ps ih =>
    intro st c u bad ps2 h hbad
    obtain ⟨st1, r, b, hok⟩ :=
      upsert_ok_of_hasKey st p (h p (List.mem_cons_self p ps))
    have hrest := fun q hq => h q (List.mem_cons_of_mem p hq)
    cases b with
    | false =>
      simp [upsertLoop, runUpserts, hok, ih st1 c (u + 1) bad ps2 hrest hbad]
    | true =>
      simp [upsertLoop, runUpserts, hok, ih st1 (c + 1) u bad ps2 hrest hbad]

/-- C8: `upsert_bulk` is not atomic across its batch — each item is
processed by an independent `upsert` that commits on its own.  When every
item carries its business key the call succeeds with `total` equal to the
list length and the store is the fold of the per-item upserts; when item N
raises (here: a payload missing its key raising `KeyError`), the loop
stops with the commits of items 1..N-1 retained, not rolled back. -/
theorem upsert_bulk_not_atomic :
    (∀ (st : Store) (ps : List Payload),
        (∀ p ∈ ps, hasBusinessKey p = true) →
        (upsert_bulk st ps).1 = runUpserts st ps ∧
        Except.map UpsertStats.total (upsert_bulk st ps).2 =
          Except.ok ps.length) ∧
    (∀ (st : Store) (ps1 : List Payload) (bad : Payload)
        (ps2 : List Payload),
        (∀ p ∈ ps1, hasBusinessKey p = true) → hasBusinessKey bad = false →
        upsert_bulk st (ps1 ++ bad :: ps2) =
          (runUpserts st ps1, Except.error "KeyError")) := by
  constructor
  · intro st ps h
    obtain ⟨c2, u2, hl⟩ := upsertLoop_ok ps st 0 0 h
    constructor
    · simp [upsert_bulk, hl]
    · simp [upsert_bulk, hl, Except.map]
  · intro st ps1 bad ps2 h hbad
    simp [upsert_bulk, upsertLoop_err ps1 st 0 0 bad ps2 h hbad]

/-- Witness for C8: a singleton batch succeeds with `total = 1`; appending
a key-less payload fails the batch while the first item's commit is
retained. -/
theorem upsert_bulk_not_atomic_witness :
    ((upsert_bulk emptyStore [payloadUpper "x"]).1 =
        runUpserts emptyStore [payloadUpper "x"] ∧
      Except.map UpsertStats.total
        (upsert_bulk emptyStore [payloadUpper "x"]).2 = Except.ok 1) ∧
    upsert_bulk emptyStore [payloadUpper "x", {}] =
      (runUpserts emptyStore [payloadUpper "x"], Except.error "KeyError") :=
  ⟨upsert_bulk_not_atomic.1 emptyStore [payloadUpper "x"] (by decide),
    upsert_bulk_not_atomic.2 emptyStore [payloadUpper "x"] {} []
      (by decide) (by decide)⟩

end Huper
